import Mathlib

/-!
Shallow embedding of the new-listing detection and rate-limited fetch
coordinator of the LavkaHahaton repository, together with proofs checking
the natural-language specification against the code.

The embedding follows the Python source:
* `src/telegram_bot/safe_mode.py`   — admission gate (`SafeMode`)
* `src/telegram_bot/parser.py`      — fetch coordinator (`CianParser`)
* `src/telegram_bot/dataBD_manager.py` — listing store (`DataBDManager`)
* `src/main.py`                     — standalone report cycle

Timestamps are modelled as seconds (Nat); the calendar date string
`%Y-%m-%d` is modelled as the day index `t / 86400`.
-/

namespace LavkaHahaton

/-- `SafeMode.safety_interval_hours = 24`, converted to seconds. -/
def safetyIntervalSeconds : Nat := 24 * 3600

/-- Seconds in one calendar day. -/
def secondsPerDay : Nat := 86400

/-- Model of `current_time.strftime('%Y-%m-%d')`: the calendar date of a
timestamp, as a day index. -/
def dateOf (t : Nat) : Nat := t / secondsPerDay

/-- One row of the `safety_log` table for a single user
(`safe_mode.py`, `init_safety_table`).  `last_parsing_time` is nullable
in the schema. -/
structure SafetyRec where
  last_parsing_time : Option Nat
  parsing_count_today : Nat
  total_parsing_count : Nat
  last_reset_date : Nat
deriving DecidableEq, Repr

/-- The `status` tag of the info dict returned by `SafeMode.can_parse`. -/
inductive SafetyStatus where
  | disabled
  | first_time
  | blocked
  | allowed
  | error
deriving DecidableEq, Repr

/-- The info dict returned by `SafeMode.can_parse`.  Keys that are absent
in a given Python dict are modelled by the value the callers would read
through `.get` with its default (`0` for the counters, `none` for the
timestamps). -/
structure CanParseInfo where
  status : SafetyStatus
  hours_left : Nat := 0
  minutes_left : Nat := 0
  next_available : Option Nat := none
  last_parsing : Option Nat := none
  total_today : Nat := 0
  total_all_time : Nat := 0
deriving DecidableEq, Repr

/-- The day-rollover reset applied by both `can_parse` and `log_parsing`:
`if last_reset_date != current_date: count_today = 0`. -/
def effCountToday (r : SafetyRec) (now : Nat) : Nat :=
  if r.last_reset_date ≠ dateOf now then 0 else r.parsing_count_today

/-- `SafeMode.can_parse` (safe_mode.py lines 62-154).  `st` is the user's
`safety_log` row (`none` when the SELECT returns no row), `now` the value
of `datetime.now()`.  A blocked result is returned exactly when the
day-reset daily count is positive and
`timedelta(hours=24) - (now - last_parsing)` is positive; the
`datetime.fromisoformat(None)` failure path (daily count positive but
`last_parsing_time` NULL) raises and is caught by the outer handler,
which allows parsing with status `error`. -/
def can_parse (enabled : Bool) (st : Option SafetyRec) (now : Nat) :
    Bool × CanParseInfo :=
  if enabled = false then
    (true, { status := .disabled })
  else
    match st with
    | none => (true, { status := .first_time })
    | some r =>
      let countToday := effCountToday r now
      if countToday > 0 then
        match r.last_parsing_time with
        | none => (true, { status := .error })
        | some lp =>
          if now < lp + safetyIntervalSeconds then
            let timeLeft := lp + safetyIntervalSeconds - now
            (false, { status := .blocked,
                      hours_left := timeLeft / 3600,
                      minutes_left := timeLeft % 3600 / 60,
                      next_available := some (lp + safetyIntervalSeconds),
                      last_parsing := some lp,
                      total_today := countToday,
                      total_all_time := r.total_parsing_count })
          else
            (true, { status := .allowed,
                     last_parsing := r.last_parsing_time,
                     total_today := countToday,
                     total_all_time := r.total_parsing_count })
      else
        (true, { status := .allowed,
                 last_parsing := r.last_parsing_time,
                 total_today := countToday,
                 total_all_time := r.total_parsing_count })

/-- `SafeMode.log_parsing` (safe_mode.py lines 156-240), returning the new
`safety_log` row for the user.  Both the UPDATE and the INSERT set
`last_parsing_time` to the current time unconditionally; only the two
counters are guarded by `success`.  When the gate is disabled nothing is
recorded. -/
def log_parsing (enabled : Bool) (st : Option SafetyRec) (now : Nat)
    (success : Bool) : Option SafetyRec :=
  if enabled = false then st
  else
    match st with
    | some r =>
      let countToday := effCountToday r now
      some { last_parsing_time := some now,
             parsing_count_today := if success then countToday + 1 else countToday,
             total_parsing_count :=
               if success then r.total_parsing_count + 1 else r.total_parsing_count,
             last_reset_date := dateOf now }
    | none =>
      some { last_parsing_time := some now,
             parsing_count_today := if success then 1 else 0,
             total_parsing_count := if success then 1 else 0,
             last_reset_date := dateOf now }

example : (can_parse true none 5).1 = true := by decide
example : (can_parse true (some ⟨some 0, 1, 1, 0⟩) 3600).1 = false := by decide
example : (can_parse true (some ⟨some 0, 1, 1, 0⟩) 100000).1 = true := by decide
example :
    log_parsing true (some ⟨some 0, 1, 1, 2⟩) 200000 false =
      some ⟨some 200000, 1, 1, 2⟩ := by decide

/-! ## Listing normalizer (`CianParser._process_offer`) -/

/-- One entry of the raw offer's `phones` list. -/
structure RawPhone where
  number : Option String
deriving DecidableEq, Repr

/-- A raw provider record, with the fields `_process_offer` reads.  Every
field is optional: a `none` models the key (or its enclosing nested
object, e.g. `bargainTerms`, `totalArea`, `geo`, `building`, `category`)
being absent from the JSON.  `categoryName` is `none` when `category` is
absent, an empty (falsy) dict, or lacks a `name` key. -/
structure RawOffer where
  id : Option Nat := none
  priceRur : Option Nat := none
  totalAreaValue : Option Nat := none
  geoUserInput : Option String := none
  floorNumber : Option Nat := none
  floorsCount : Option Nat := none
  phones : List RawPhone := []
  categoryName : Option String := none
  description : Option String := none
deriving DecidableEq, Repr

/-- The dict built by `_process_offer`. -/
structure ProcessedOffer where
  id : Nat
  price_text : String
  price_per_month : Nat
  area : String
  address : String
  url : String
  floor_info : String
  phones : List String
  types : String
  description : String
  added_time : String
deriving DecidableEq, Repr

/-- Helper for `f"{price:,}".replace(',', ' ')`: group the reversed digit
list in threes, separated by spaces. -/
def groupRev : List Char → List Char
  | a :: b :: c :: d :: rest => a :: b :: c :: ' ' :: groupRev (d :: rest)
  | l => l

/-- Model of `f"{price:,} ₽/мес".replace(',', ' ')` for a natural number. -/
def formatThousands (n : Nat) : String :=
  String.mk (groupRev (toString n).toList.reverse).reverse

example : formatThousands 85000 = "85 000" := by decide
example : formatThousands 120 = "120" := by decide

/-- `CianParser._process_offer` (parser.py lines 282-355).  Every access
goes through `.get` with a default, so for well-typed raw records the
`try` body never raises and the `except` branch is dead; the embedding is
the `try` body. -/
def process_offer (o : RawOffer) : ProcessedOffer :=
  let offerId := o.id.getD 0
  let price := o.priceRur.getD 0
  let priceText :=
    if price > 0 then formatThousands price ++ " ₽/мес" else "Цена не указана"
  let areaValue := o.totalAreaValue.getD 0
  let area :=
    if areaValue ≠ 0 then toString areaValue ++ " м²" else "Площадь не указана"
  let address :=
    match o.geoUserInput with
    | some s => if s ≠ "" then s else "Адрес не указан"
    | none => "Адрес не указан"
  let url := "https://perm.cian.ru/rent/commercial/" ++ toString offerId ++ "/"
  let floorNumber := o.floorNumber.getD 0
  let floorsCount := o.floorsCount.getD 0
  let floorInfo :=
    if floorNumber ≠ 0 ∧ floorsCount ≠ 0 then
      toString floorNumber ++ "/" ++ toString floorsCount
    else "Не указан"
  let phones := o.phones.filterMap fun p =>
    match p.number with
    | some n => if n ≠ "" then some n else none
    | none => none
  let types := o.categoryName.getD "Свободное назначение"
  { id := offerId,
    price_text := priceText,
    price_per_month := price,
    area := area,
    address := address,
    url := url,
    floor_info := floorInfo,
    phones := phones,
    types := types,
    description := o.description.getD "",
    added_time := "Недавно" }

/-- One row of the `real_estate_listings` table / the dict built by
`CianParser._prepare_for_databd`. -/
structure DbListing where
  id : String
  source : String
  price : Nat
  area : String
  description : String
  url : String
  floor : String
  address : String
  lat : String
  lng : String
  seller : String
  photos : List String
  status : String
  visible : Nat
deriving DecidableEq, Repr

/-- `CianParser._prepare_for_databd` (parser.py lines 357-393):
`id` becomes `str(processed_offer.get('id', ''))`. -/
def prepare_for_databd (p : ProcessedOffer) : DbListing :=
  { id := toString p.id,
    source := "cian",
    price := p.price_per_month,
    area := p.area,
    description := p.description,
    url := p.url,
    floor := p.floor_info,
    address := p.address,
    lat := "",
    lng := "",
    seller := String.intercalate ", " p.phones,
    photos := [],
    status := "open",
    visible := 1 }

/-! ## Listing store (`DataBDManager`) -/

/-- The `real_estate_listings` table, in insertion order. -/
abbrev ListingStore := List DbListing

/-- `SELECT id FROM real_estate_listings WHERE id = ?` followed by the
row fetch: the first stored row with the given id. -/
def findListing (store : ListingStore) (i : String) : Option DbListing :=
  store.find? fun l => l.id = i

/-- `DataBDManager.save_listing` (dataBD_manager.py lines 165-261): if a
row with the listing's id exists, UPDATE every field of that row and
return `false`; otherwise INSERT and return `true`. -/
def save_listing (store : ListingStore) (d : DbListing) : Bool × ListingStore :=
  match findListing store d.id with
  | some _ => (false, store.map fun l => if l.id = d.id then d else l)
  | none => (true, store ++ [d])

/-- `DataBDManager.get_seen_offers` (dataBD_manager.py lines 472-484):
returns `set()` unconditionally, ignoring both the database contents and
the user. -/
def get_seen_offers (_store : ListingStore) (_userId : String) : Finset Nat :=
  ∅

/-! ## Fetch coordinator (`CianParser.parse_offers`) -/

/-- Database state threaded through a fetch cycle: the listings table and
the number of `parsing_sessions` rows (sessions are only counted; their
fields play no part in any claim). -/
structure DbState where
  listings : ListingStore
  sessions : Nat
deriving DecidableEq, Repr

/-- The stats dict returned by `parse_offers`.  Each Python dict key that
may be absent is an `Option` field (`none` = key absent).  The
clock-derived display strings `search_time` and `timestamp` are omitted.
`next_available` is `none` when the Python value is the placeholder
string `'Неизвестно'`. -/
structure ParseStats where
  error : Option String := none
  status : Option SafetyStatus := none
  hours_left : Option Nat := none
  minutes_left : Option Nat := none
  next_available : Option Nat := none
  last_parsing : Option Nat := none
  total_today : Option Nat := none
  total_all_time : Option Nat := none
  safety_mode : Option Bool := none
  total_count : Option Nat := none
  new_count : Option Nat := none
  seen_count : Option Nat := none
  demo_mode : Option Bool := none
  bypass_mode : Option Bool := none
deriving DecidableEq, Repr

/-- The `blocked_stats` dict built in `parse_offers` (parser.py lines
125-136) from the info of the denying `can_parse` call, reading each key
with `.get` and its default. -/
def blockedStatsOf (info : CanParseInfo) : ParseStats :=
  { error := some "safe_mode_blocked",
    status := some info.status,
    hours_left := some info.hours_left,
    minutes_left := some info.minutes_left,
    next_available := info.next_available,
    last_parsing := info.last_parsing,
    total_today := some info.total_today,
    total_all_time := some info.total_all_time,
    safety_mode := some true }

/-- In-memory state of the per-offer loop of `parse_offers` (parser.py
lines 224-245) and `_process_api_data`. -/
structure CycleState where
  processed : List ProcessedOffer
  newOffers : List ProcessedOffer
  seen : Finset Nat
  store : ListingStore
deriving DecidableEq

/-- One iteration of the loop: process the offer, append it to
`processed_offers`, and when `int(processed_offer['id'])` is not in
`seen_offers`, append to `new_offers`, add the id to `seen_offers` and
`save_listing` the prepared row. -/
def stepOffer (st : CycleState) (o : RawOffer) : CycleState :=
  let p := process_offer o
  let st1 := { st with processed := st.processed ++ [p] }
  if p.id ∈ st1.seen then st1
  else
    { st1 with
      newOffers := st1.newOffers ++ [p],
      seen := insert p.id st1.seen,
      store := (save_listing st1.store (prepare_for_databd p)).2 }

/-- The whole per-offer loop over the raw offers of one cycle. -/
def runCycle (seen0 : Finset Nat) (store0 : ListingStore)
    (raw : List RawOffer) : CycleState :=
  raw.foldl stepOffer ⟨[], [], seen0, store0⟩

/-- Outcome of `self.session.post(CIAN_API_URL, ...)`: either a response
with an HTTP status and (for status 200) the decoded offers, or a raised
`requests` exception (network error / timeout) with its message. -/
inductive ProviderOutcome where
  | response (statusCode : Nat) (offers : List RawOffer)
  | exn (msg : String)
deriving DecidableEq, Repr

/-- The two hard-coded demo offers of `CianParser._get_demo_data`
(parser.py lines 399-426). -/
def demoOffers : List ProcessedOffer :=
  [{ id := 1001,
     price_text := "85 000 ₽/мес",
     price_per_month := 85000,
     area := "45 м²",
     address := "г. Пермь, ул. Ленина, 50",
     url := "https://perm.cian.ru/rent/commercial/1001/",
     floor_info := "3/9",
     phones := ["+7(342)123-45-67"],
     types := "Офис",
     description := "Демонстрационное объявление - API Cian.ru временно недоступен",
     added_time := "Сегодня" },
   { id := 1002,
     price_text := "120 000 ₽/мес",
     price_per_month := 120000,
     area := "78 м²",
     address := "г. Пермь, ул. Мира, 25",
     url := "https://perm.cian.ru/rent/commercial/1002/",
     floor_info := "1/5",
     phones := ["+7(342)987-65-43"],
     types := "Торговое помещение",
     description := "Демонстрационное объявление #2 - API Cian.ru временно недоступен",
     added_time := "Вчера" }]

/-- Result of one `parse_offers` call: the returned `(offers, stats)`
pair plus the post-call database and `safety_log` states. -/
structure ParseResult where
  offers : List ProcessedOffer
  stats : ParseStats
  db : DbState
  gate : Option SafetyRec
deriving DecidableEq, Repr

/-- `CianParser._get_demo_data` (parser.py lines 395-457): saves the two
demo offers to the store and records a `success=True` parsing. -/
def get_demo_data (enabled : Bool) (onlyNew : Bool) (gate : Option SafetyRec)
    (db : DbState) (now : Nat) : ParseResult :=
  let store1 := demoOffers.foldl (fun s p => (save_listing s (prepare_for_databd p)).2)
    db.listings
  { offers := demoOffers,
    stats := { total_count := some demoOffers.length,
               new_count := some (if onlyNew then demoOffers.length else 0),
               seen_count := some (if onlyNew then 0 else demoOffers.length),
               demo_mode := some true },
    db := { db with listings := store1 },
    gate := log_parsing enabled gate now true }

/-- The tail of a successful cycle (both the bypass branch, parser.py
lines 161-194, and the standard branch, lines 217-276): run the loop,
attempt `save_seen_offers` — which calls `db_manager.save_seen_offers`, a
method `DataBDManager` does not define, so the `AttributeError` is caught
in `CianParser.save_seen_offers` and nothing is persisted — finish the
session, build the stats and record a `success=True` parsing. -/
def finishCycle (enabled : Bool) (onlyNew : Bool) (gate : Option SafetyRec)
    (db : DbState) (now : Nat) (seen0 : Finset Nat) (raw : List RawOffer)
    (bypassMode : Bool) : ParseResult :=
  let fin := runCycle seen0 db.listings raw
  { offers := if onlyNew then fin.newOffers else fin.processed,
    stats := { total_count := some fin.processed.length,
               new_count := some fin.newOffers.length,
               seen_count := some (fin.processed.length - fin.newOffers.length),
               bypass_mode := if bypassMode then some true else none },
    db := { db with listings := fin.store },
    gate := log_parsing enabled gate now true }

/-- `CianParser.parse_offers` (parser.py lines 103-280).  `bypass` is the
result of `bypass_system.get_working_data()` when the bypass module is
available and returned usable data, `none` otherwise (module unavailable
or no `'data'` key), in which case the standard request runs with outcome
`provider`.  A non-200 status other than 500 and a raised request
exception both return `([], {'error': ...})` without touching the
listings, the seen-set or the safety log; status 500 falls back to
`_get_demo_data`. -/
def parse_offers (enabled : Bool) (userId : String) (onlyNew : Bool)
    (gate : Option SafetyRec) (db : DbState) (now : Nat)
    (bypass : Option (List RawOffer)) (provider : ProviderOutcome) :
    ParseResult :=
  let check := can_parse enabled gate now
  if check.1 = false then
    { offers := [], stats := blockedStatsOf check.2, db := db, gate := gate }
  else
    let seen0 := get_seen_offers db.listings userId
    let db1 := { db with sessions := db.sessions + 1 }
    match bypass with
    | some raw => finishCycle enabled onlyNew gate db1 now seen0 raw true
    | none =>
      match provider with
      | .response statusCode raw =>
        if statusCode ≠ 200 then
          if statusCode = 500 then get_demo_data enabled onlyNew gate db1 now
          else
            { offers := [],
              stats := { error := some ("API вернул статус " ++ toString statusCode) },
              db := db1, gate := gate }
        else finishCycle enabled onlyNew gate db1 now seen0 raw false
      | .exn msg =>
        { offers := [], stats := { error := some msg }, db := db1, gate := gate }

/-! ## Standalone report cycle (`src/main.py`) -/

/-- In-loop state of the `main()` diff loop (main.py lines 120-127):
`new_offers` (kept as their ids) and `current_offer_ids`. -/
structure MainCycleState where
  newOffers : List Nat
  currentIds : Finset Nat
deriving DecidableEq

/-- One iteration of the `main()` loop: add the offer id to
`current_offer_ids`, and append the offer to `new_offers` when the id is
not in the `seen_offers` loaded at start-up (never mutated during the
loop). -/
def mainStep (seen : Finset Nat) (st : MainCycleState) (i : Nat) :
    MainCycleState :=
  let st1 := { st with currentIds := insert i st.currentIds }
  if i ∈ seen then st1 else { st1 with newOffers := st1.newOffers ++ [i] }

/-- The `main()` diff loop over the fetched offer ids, followed by
`save_seen_offers(current_offer_ids)` (main.py line 244): the persisted
set is `currentIds` itself, not its union with `seen`. -/
def mainCycle (seen : Finset Nat) (fetchedIds : List Nat) : MainCycleState :=
  fetchedIds.foldl (mainStep seen) ⟨[], ∅⟩

/-! ## Price resolution in the `main()` report (main.py lines 147-170) -/

/-- The provider's `totalArea` string: either a string that Python's
`float` parses to the value `q`, or one it fails on. -/
inductive AreaField where
  | num (q : ℚ)
  | raw (s : String)
deriving DecidableEq, Repr

/-- `area_numeric` (main.py lines 148-154): 0 when the area field is
absent or unparsable, else the parsed value.  (A present field whose
string equals the default placeholder is unparsable, covered by `raw`.) -/
def areaNumeric : Option AreaField → ℚ
  | none => 0
  | some (.num q) => q
  | some (.raw _) => 0

/-- How the price line of the report is produced: a total monthly price
computed by multiplication, a direct price used as the monthly price
unchanged, or the provider's preformatted price string. -/
inductive PriceDisplay where
  | monthlyComputed (total : ℚ)
  | monthlyDirect (p : ℚ)
  | preformatted (s : String)
deriving DecidableEq, Repr

/-- The price resolution of `main()` (lines 156-169): when
`bargainTerms.price` is truthy (present and nonzero), multiply by the
area exactly when `priceType == 'squareMeter'` and `area_numeric > 0`,
else use the price unchanged; only a missing (or zero, falsy) price falls
back to `formattedShortPrice`. -/
def resolvePrice (price : Option ℚ) (priceType : Option String)
    (area : Option AreaField) (formattedShortPrice : Option String) :
    PriceDisplay :=
  match price with
  | some p =>
    if p ≠ 0 then
      if priceType = some "squareMeter" ∧ areaNumeric area > 0 then
        .monthlyComputed (p * areaNumeric area)
      else .monthlyDirect p
    else .preformatted (formattedShortPrice.getD "Не указана")
  | none => .preformatted (formattedShortPrice.getD "Не указана")

/-! ## Helper lemmas -/

/-- Two timestamps on the same calendar date are less than one day
apart. -/
lemma lt_add_day_of_dateOf_eq {a b : Nat} (h : dateOf a = dateOf b) :
    a < b + secondsPerDay := by
  simp only [dateOf, secondsPerDay] at h ⊢
  omega

/-- The fetch interval in seconds equals one calendar day. -/
lemma safetyInterval_eq_day : safetyIntervalSeconds = secondsPerDay := by decide

/-- A timestamp more than the fetch interval after `T` falls on a later
calendar date. -/
lemma dateOf_ne_of_interval_lt {T now : Nat}
    (h : T + safetyIntervalSeconds < now) : dateOf now ≠ dateOf T := by
  intro he
  have := lt_add_day_of_dateOf_eq he
  rw [safetyInterval_eq_day] at h
  omega

/-- Evaluation of `can_parse` on a record freshly written by a successful
`log_parsing` at time `T`: blocked on the same calendar date, allowed on
any other. -/
lemma can_parse_after_success (T now c tot : Nat) (hc : 0 < c) :
    (dateOf now = dateOf T →
      can_parse true (some ⟨some T, c, tot, dateOf T⟩) now =
        (false, { status := .blocked,
                  hours_left := (T + safetyIntervalSeconds - now) / 3600,
                  minutes_left := (T + safetyIntervalSeconds - now) % 3600 / 60,
                  next_available := some (T + safetyIntervalSeconds),
                  last_parsing := some T,
                  total_today := c,
                  total_all_time := tot }))
    ∧ (dateOf now ≠ dateOf T →
      can_parse true (some ⟨some T, c, tot, dateOf T⟩) now =
        (true, { status := .allowed, last_parsing := some T,
                 total_today := 0, total_all_time := tot })) := by
  constructor
  · intro hd
    have hlt : now < T + safetyIntervalSeconds := by
      have := lt_add_day_of_dateOf_eq hd
      rw [safetyInterval_eq_day]
      omega
    simp [can_parse, effCountToday, hd, hc, hlt]
  · intro hd
    have hd2 : dateOf T ≠ dateOf now := fun h => hd h.symm
    simp [can_parse, effCountToday, hd2]

/-! ## Claim C1 -/

/-- C1 (counterexample): a `log_parsing` call with `success = false` does
NOT leave `last_parsing_time` unchanged — both the UPDATE and the INSERT
set it to the current time.  At the prior record
`⟨last_parsing_time = 0, count_today = 1, total = 1, reset_date = day 2⟩`
and `now = 200000` (day 2), `can_parse` was allowed before the failed
call (the 24h interval had elapsed) and is blocked right after it, so the
claimed allowed-preservation also fails at this state. -/
theorem c1_counterexample :
    (can_parse true (some ⟨some 0, 1, 1, 2⟩) 200000).1 = true
    ∧ log_parsing true (some ⟨some 0, 1, 1, 2⟩) 200000 false =
        some ⟨some 200000, 1, 1, 2⟩
    ∧ (some 200000 : Option Nat) ≠ (⟨some 0, 1, 1, 2⟩ : SafetyRec).last_parsing_time
    ∧ (can_parse true (log_parsing true (some ⟨some 0, 1, 1, 2⟩) 200000 false)
        200000).1 = false := by
  refine ⟨by decide, by decide, by decide, by decide⟩

/-- C1 (amended): a `success=false` call leaves both counters at their
day-reset values (`total` unchanged, daily count unchanged within the
same day and 0 after a date change) but DOES update `last_parsing_time`
to the current time; a `success=true` call updates `last_parsing_time`
and increments both counters.  `can_parse` immediately after a failed
fetch still returns allowed whenever the effective daily count was 0
before the attempt (in particular after any failure that follows a
first-time or day-rolled-over allowed check). -/
theorem c1_record_fetch_amended (r : SafetyRec) (now : Nat) :
    log_parsing true (some r) now false =
      some { last_parsing_time := some now,
             parsing_count_today := effCountToday r now,
             total_parsing_count := r.total_parsing_count,
             last_reset_date := dateOf now }
    ∧ log_parsing true (some r) now true =
      some { last_parsing_time := some now,
             parsing_count_today := effCountToday r now + 1,
             total_parsing_count := r.total_parsing_count + 1,
             last_reset_date := dateOf now }
    ∧ ∀ st : Option SafetyRec, (∀ r2, st = some r2 → effCountToday r2 now = 0) →
        (can_parse true st now).1 = true
        ∧ (can_parse true (log_parsing true st now false) now).1 = true := by
  refine ⟨rfl, rfl, ?_⟩
  intro st h
  cases st with
  | none =>
    constructor
    · simp [can_parse]
    · simp [can_parse, log_parsing, effCountToday]
  | some r2 =>
    have h2 := h r2 rfl
    simp only [effCountToday] at h2
    constructor
    · simp [can_parse, effCountToday, h2]
    · simp [can_parse, log_parsing, effCountToday, h2]

/-- Witness for `c1_record_fetch_amended` at a concrete record and
time. -/
theorem c1_record_fetch_amended_witness :
    log_parsing true (some ⟨some 0, 0, 5, 0⟩) 100 false =
      some ⟨some 100, 0, 5, 0⟩
    ∧ (can_parse true (log_parsing true (some ⟨some 0, 0, 5, 0⟩) 100 false)
        100).1 = true :=
  ⟨(c1_record_fetch_amended ⟨some 0, 0, 5, 0⟩ 100).1,
   ((c1_record_fetch_amended ⟨some 0, 0, 5, 0⟩ 100).2.2
      (some ⟨some 0, 0, 5, 0⟩)
      (fun r2 h => by injection h with h2; subst h2; decide)).2⟩

/-! ## Claim C5 -/

/-- C5 (counterexample): a successful fetch is recorded at `T = 86000`
(end of day 0); at `now = 86500`, strictly before `T + 24h`, `can_parse`
already returns allowed again, because the new calendar date resets the
daily count. -/
theorem c5_counterexample :
    86500 < 86000 + safetyIntervalSeconds
    ∧ (can_parse true (log_parsing true none 86000 true) 86500).1 = true := by
  refine ⟨by decide, by decide⟩

/-- C5 (amended): while the gate is enabled, after a successful fetch
recorded at `T`, `can_parse` is blocked (with
`next_available = T + interval`) at every time on the same calendar date
as `T`, and allowed at every time on a different calendar date — in
particular already allowed on the next date strictly before
`T + interval`; at any time after `T + interval` (necessarily a later
date) it is allowed. -/
theorem c5_interval_amended (st : Option SafetyRec) (T now : Nat) :
    (dateOf now = dateOf T →
      (can_parse true (log_parsing true st T true) now).1 = false
      ∧ (can_parse true (log_parsing true st T true) now).2.status = .blocked
      ∧ (can_parse true (log_parsing true st T true) now).2.next_available =
          some (T + safetyIntervalSeconds))
    ∧ (dateOf now ≠ dateOf T →
      (can_parse true (log_parsing true st T true) now).1 = true)
    ∧ (T + safetyIntervalSeconds < now →
      (can_parse true (log_parsing true st T true) now).1 = true) := by
  have main : ∀ c tot : Nat, 0 < c →
      (dateOf now = dateOf T →
        (can_parse true (some ⟨some T, c, tot, dateOf T⟩) now).1 = false
        ∧ (can_parse true (some ⟨some T, c, tot, dateOf T⟩) now).2.status = .blocked
        ∧ (can_parse true (some ⟨some T, c, tot, dateOf T⟩) now).2.next_available =
            some (T + safetyIntervalSeconds))
      ∧ (dateOf now ≠ dateOf T →
        (can_parse true (some ⟨some T, c, tot, dateOf T⟩) now).1 = true) := by
    intro c tot hc
    constructor
    · intro hd
      rw [(can_parse_after_success T now c tot hc).1 hd]
      exact ⟨rfl, rfl, rfl⟩
    · intro hd
      rw [(can_parse_after_success T now c tot hc).2 hd]
  cases st with
  | none =>
    have hlog : log_parsing true none T true = some ⟨some T, 1, 1, dateOf T⟩ := rfl
    rw [hlog]
    refine ⟨(main 1 1 Nat.one_pos).1, (main 1 1 Nat.one_pos).2, ?_⟩
    intro h
    exact (main 1 1 Nat.one_pos).2 (dateOf_ne_of_interval_lt h)
  | some r =>
    have hlog : log_parsing true (some r) T true =
        some ⟨some T, effCountToday r T + 1, r.total_parsing_count + 1, dateOf T⟩ := rfl
    rw [hlog]
    refine ⟨(main _ _ (Nat.succ_pos _)).1, (main _ _ (Nat.succ_pos _)).2, ?_⟩
    intro h
    exact (main _ _ (Nat.succ_pos _)).2 (dateOf_ne_of_interval_lt h)

/-- Witness for `c5_interval_amended`: a success at `T = 1000` blocks a
check at `now = 2000` on the same day, with the next-available timestamp
`T + interval`. -/
theorem c5_interval_amended_witness :
    dateOf 2000 = dateOf 1000
    ∧ (can_parse true (log_parsing true none 1000 true) 2000).1 = false
    ∧ (can_parse true (log_parsing true none 1000 true) 2000).2.status = .blocked
    ∧ (can_parse true (log_parsing true none 1000 true) 2000).2.next_available =
        some (1000 + safetyIntervalSeconds) :=
  ⟨by decide, (c5_interval_amended none 1000 2000).1 (by decide)⟩

/-! ## Claim C9 -/

/-- C9: the listing normalizer is total on raw records.  The empty record
(every nested object missing) produces the documented defaults: zero
price (`price_per_month = 0`, placeholder price text), placeholder area
and address strings, the general-purpose category label, an empty phone
list; at the `main()` report level a missing area yields
`area_numeric = 0`.  Any record with a missing `geo`, `category`,
`totalArea` or `phones` field gets the corresponding default while the
rest of the pipeline continues. -/
theorem c9_normalizer_total_defaults :
    process_offer {} =
      { id := 0, price_text := "Цена не указана", price_per_month := 0,
        area := "Площадь не указана", address := "Адрес не указан",
        url := "https://perm.cian.ru/rent/commercial/0/",
        floor_info := "Не указан", phones := [],
        types := "Свободное назначение", description := "",
        added_time := "Недавно" }
    ∧ areaNumeric none = 0
    ∧ (∀ o : RawOffer, o.geoUserInput = none →
        (process_offer o).address = "Адрес не указан")
    ∧ (∀ o : RawOffer, o.categoryName = none →
        (process_offer o).types = "Свободное назначение")
    ∧ (∀ o : RawOffer, o.phones = [] → (process_offer o).phones = [])
    ∧ (∀ o : RawOffer, o.totalAreaValue = none →
        (process_offer o).area = "Площадь не указана") := by
  refine ⟨by decide, rfl, ?_, ?_, ?_, ?_⟩
  · intro o h
    simp [process_offer, h]
  · intro o h
    simp [process_offer, h]
  · intro o h
    simp [process_offer, h]
  · intro o h
    simp [process_offer, h]

/-- Witness for `c9_normalizer_total_defaults` at the empty record. -/
theorem c9_normalizer_total_defaults_witness :
    (({} : RawOffer).geoUserInput = none
      ∧ (process_offer {}).address = "Адрес не указан")
    ∧ (({} : RawOffer).categoryName = none
      ∧ (process_offer {}).types = "Свободное назначение")
    ∧ (({} : RawOffer).phones = [] ∧ (process_offer {}).phones = [])
    ∧ (({} : RawOffer).totalAreaValue = none
      ∧ (process_offer {}).area = "Площадь не указана") :=
  ⟨⟨rfl, c9_normalizer_total_defaults.2.2.1 {} rfl⟩,
   ⟨rfl, c9_normalizer_total_defaults.2.2.2.1 {} rfl⟩,
   ⟨rfl, c9_normalizer_total_defaults.2.2.2.2.1 {} rfl⟩,
   ⟨rfl, c9_normalizer_total_defaults.2.2.2.2.2 {} rfl⟩⟩

/-! ## Claim C4 -/

/-- C4 (counterexample): a per-square-meter price (`price = 1000`,
`priceType = 'squareMeter'`) with a missing area does NOT fall back to
the provider's preformatted price string — the code's `else` branch uses
the unit price unchanged as the monthly price. -/
theorem c4_counterexample :
    resolvePrice (some 1000) (some "squareMeter") none (some "1 000 ₽/мес.") =
      PriceDisplay.monthlyDirect 1000
    ∧ resolvePrice (some 1000) (some "squareMeter") none (some "1 000 ₽/мес.") ≠
      PriceDisplay.preformatted "1 000 ₽/мес." := by
  refine ⟨by decide, by decide⟩

/-- C4 (amended): price resolution order of `main()`: a truthy direct
price tagged per-square-meter with positive parsed area is multiplied
(`1000 * 50 = 50000`); a truthy direct price without the tag is used as
the monthly price unchanged (`45000`); a per-square-meter price with
missing or zero area is never multiplied but is also used as the monthly
price unchanged; only a missing (or zero, falsy) direct price falls back
to the provider's preformatted price string. -/
theorem c4_price_resolution_amended (price : ℚ) (priceType : Option String)
    (area : Option AreaField) (fsp : Option String) :
    (price ≠ 0 → priceType = some "squareMeter" → 0 < areaNumeric area →
      resolvePrice (some price) priceType area fsp =
        .monthlyComputed (price * areaNumeric area))
    ∧ (price ≠ 0 → priceType ≠ some "squareMeter" →
      resolvePrice (some price) priceType area fsp = .monthlyDirect price)
    ∧ (price ≠ 0 → areaNumeric area = 0 →
      resolvePrice (some price) priceType area fsp = .monthlyDirect price)
    ∧ resolvePrice none priceType area fsp =
        .preformatted (fsp.getD "Не указана")
    ∧ resolvePrice (some 0) priceType area fsp =
        .preformatted (fsp.getD "Не указана")
    ∧ resolvePrice (some 1000) (some "squareMeter") (some (.num 50)) fsp =
        .monthlyComputed 50000 := by
  refine ⟨?_, ?_, ?_, rfl, by norm_num [resolvePrice], by norm_num [resolvePrice, areaNumeric]⟩
  · intro h1 h2 h3
    simp [resolvePrice, h1, h2, h3]
  · intro h1 h2
    simp [resolvePrice, h1, h2]
  · intro h1 h2
    simp [resolvePrice, h1, h2]

/-- Witness for `c4_price_resolution_amended`: the zero-area
per-square-meter case at `price = 1000` yields the direct monthly price,
and the documented multiplication case yields `50000`. -/
theorem c4_price_resolution_amended_witness :
    ((1000 : ℚ) ≠ 0 ∧ areaNumeric none = 0
      ∧ resolvePrice (some 1000) (some "squareMeter") none (some "x") =
          .monthlyDirect 1000)
    ∧ ((45000 : ℚ) ≠ 0 ∧ (none : Option String) ≠ some "squareMeter"
      ∧ resolvePrice (some 45000) none (some (.num 7)) none =
          .monthlyDirect 45000) :=
  ⟨⟨by norm_num, rfl,
    (c4_price_resolution_amended 1000 (some "squareMeter") none (some "x")).2.2.1
      (by norm_num) rfl⟩,
   ⟨by norm_num, by decide,
    (c4_price_resolution_amended 45000 none (some (.num 7)) none).2.1
      (by norm_num) (by decide)⟩⟩

/-! ## Claim C2 -/

/-- Characterization of the `main()` diff loop fold: new offers are the
fetched ids not in the start-up seen-set, and `current_offer_ids`
collects exactly the fetched ids. -/
lemma mainCycle_fold (S : Finset Nat) :
    ∀ (F : List Nat) (st : MainCycleState),
      (F.foldl (mainStep S) st).newOffers =
        st.newOffers ++ F.filter (fun i => i ∉ S)
      ∧ ∀ x, x ∈ (F.foldl (mainStep S) st).currentIds ↔
          x ∈ st.currentIds ∨ x ∈ F := by
  intro F
  induction F with
  | nil =>
    intro st
    simp
  | cons i F ih =>
    intro st
    simp only [List.foldl_cons]
    constructor
    · rw [(ih _).1]
      by_cases hi : i ∈ S
      · simp [mainStep, hi]
      · simp [mainStep, hi]
    · intro x
      rw [(ih _).2 x]
      by_cases hi : i ∈ S
      · simp [mainStep, hi, Finset.mem_insert]
        tauto
      · simp [mainStep, hi, Finset.mem_insert]
        tauto

/-- C2 (counterexample): with seen-set `S = {1,2,3}` and fetched ids
`F = [2,3,4,5]`, the `main()` cycle counts 2 new records, but the
persisted seen-set is `current_offer_ids = {2,3,4,5}` — not the union
`{1,2,3,4,5}` and not a superset of `S`. -/
theorem c2_counterexample :
    (mainCycle {1, 2, 3} [2, 3, 4, 5]).newOffers = [4, 5]
    ∧ (mainCycle {1, 2, 3} [2, 3, 4, 5]).currentIds = {2, 3, 4, 5}
    ∧ ¬ ({1, 2, 3} : Finset Nat) ⊆ (mainCycle {1, 2, 3} [2, 3, 4, 5]).currentIds
    ∧ (mainCycle {1, 2, 3} [2, 3, 4, 5]).currentIds ≠ ({1, 2, 3, 4, 5} : Finset Nat) := by
  refine ⟨by decide, by decide, by decide, by decide⟩

/-- C2 (amended): in the `main()` cycle a record is counted new iff its
id is not in the snapshot `S` (the seen-set is not modified during the
loop), `new_count + (total_count - new_count) = total_count`, and the
seen-set persisted at the end of the cycle is exactly the set of ids
fetched this cycle — it replaces `S` instead of being unioned with it,
so it is a superset of `S` only when every old id was fetched again. -/
theorem c2_seen_set_amended (S : Finset Nat) (F : List Nat) :
    (mainCycle S F).newOffers = F.filter (fun i => i ∉ S)
    ∧ (mainCycle S F).newOffers.length
        + (F.length - (mainCycle S F).newOffers.length) = F.length
    ∧ (mainCycle S F).currentIds = F.toFinset := by
  have h := mainCycle_fold S F ⟨[], ∅⟩
  refine ⟨?_, ?_, ?_⟩
  · simpa [mainCycle] using h.1
  · have hle : (F.filter (fun i => i ∉ S)).length ≤ F.length :=
      List.length_filter_le _ _
    have h1 : (mainCycle S F).newOffers = F.filter (fun i => i ∉ S) := by
      simpa [mainCycle] using h.1
    rw [h1]
    omega
  · ext x
    have h2 := h.2 x
    simp only [mainCycle]
    rw [h2]
    simp

/-! ## Claim C8 -/

/-- A sample listing row for concrete store evaluations. -/
def sampleListing : DbListing :=
  { id := "1001", source := "cian", price := 85000, area := "45 м²",
    description := "d", url := "u", floor := "3/9", address := "a",
    lat := "", lng := "", seller := "s", photos := [], status := "open",
    visible := 1 }

/-- Inserting into a store with no matching row appends the row. -/
lemma save_listing_insert (store : ListingStore) (d : DbListing)
    (h : findListing store d.id = none) :
    save_listing store d = (true, store ++ [d]) := by
  simp [save_listing, h]

/-- After appending a fresh row, lookup finds exactly it. -/
lemma findListing_append_right (store : ListingStore) (d : DbListing)
    (h : findListing store d.id = none) :
    findListing (store ++ [d]) d.id = some d := by
  simp only [findListing] at h ⊢
  rw [List.find?_append, h]
  simp

/-- The UPDATE of `save_listing` leaves rows with other ids untouched, so
filtering for the updated id over them yields nothing. -/
lemma filter_map_overwrite (store : ListingStore) (d : DbListing)
    (h : ∀ l ∈ store, l.id ≠ d.id) :
    ((store.map fun l => if l.id = d.id then d else l).filter
      fun l => l.id = d.id) = [] := by
  induction store with
  | nil => simp
  | cons x xs ih =>
    have hx := h x (List.mem_cons_self x xs)
    simp only [List.map_cons, List.filter_cons]
    simp only [hx, if_false]
    simp only [decide_eq_true_eq, hx, if_false]
    exact ih fun l hl => h l (List.mem_cons_of_mem _ hl)

/-- After the UPDATE of `save_listing`, lookup of the id returns the new
row. -/
lemma findListing_map_overwrite (store : ListingStore) (d : DbListing)
    (h : findListing store d.id ≠ none) :
    findListing (store.map fun l => if l.id = d.id then d else l) d.id =
      some d := by
  simp only [findListing] at h ⊢
  induction store with
  | nil => simp at h
  | cons x xs ih =>
    by_cases hx : x.id = d.id
    · rw [List.map_cons, if_pos hx, List.find?_cons_of_pos _ (by simp)]
    · rw [List.map_cons, if_neg hx, List.find?_cons_of_neg _ (by simp [hx])]
      rw [List.find?_cons_of_neg _ (by simp [hx])] at h
      exact ih h

/-- C8: `save_listing` is an upsert keyed by `id`: a missing id is
inserted with result `true`; a present id has all its fields overwritten
with result `false`; two identical calls on a fresh id return
`(true, false)` and leave exactly one row with that id. -/
theorem c8_save_listing_upsert (store : ListingStore) (d : DbListing) :
    (findListing store d.id = none →
      save_listing store d = (true, store ++ [d])
      ∧ (save_listing (store ++ [d]) d).1 = false
      ∧ ((save_listing (store ++ [d]) d).2.filter
          fun l => l.id = d.id).length = 1)
    ∧ ∀ e, findListing store d.id = some e →
      (save_listing store d).1 = false
      ∧ findListing (save_listing store d).2 d.id = some d := by
  constructor
  · intro h
    have h1 : findListing (store ++ [d]) d.id = some d :=
      findListing_append_right store d h
    have hmem : ∀ l ∈ store, l.id ≠ d.id := by
      intro l hl
      simp only [findListing] at h
      have h2 := List.find?_eq_none.mp h l hl
      simpa using h2
    refine ⟨save_listing_insert store d h, by simp [save_listing, h1], ?_⟩
    simp only [save_listing, h1]
    rw [List.map_append, List.filter_append, filter_map_overwrite store d hmem]
    simp
  · intro e he
    constructor
    · simp [save_listing, he]
    · simp only [save_listing, he]
      exact findListing_map_overwrite store d (by rw [he]; simp)

/-- Witness for `c8_save_listing_upsert`: the double call on an empty
store. -/
theorem c8_save_listing_upsert_witness :
    findListing [] sampleListing.id = none
    ∧ save_listing [] sampleListing = (true, [] ++ [sampleListing])
    ∧ (save_listing ([] ++ [sampleListing]) sampleListing).1 = false
    ∧ ((save_listing ([] ++ [sampleListing]) sampleListing).2.filter
        fun l => l.id = sampleListing.id).length = 1 :=
  ⟨by decide,
   ((c8_save_listing_upsert [] sampleListing).1 (by decide)).1,
   ((c8_save_listing_upsert [] sampleListing).1 (by decide)).2.1,
   ((c8_save_listing_upsert [] sampleListing).1 (by decide)).2.2⟩

/-! ## Claim C10 -/

/-- When the processed ids are pairwise distinct and none is in the
starting seen-set, every offer of the cycle takes the "new" branch. -/
lemma runCycle_all_new :
    ∀ (raw : List RawOffer) (st : CycleState),
      (∀ o ∈ raw, (process_offer o).id ∉ st.seen) →
      (raw.map fun o => (process_offer o).id).Nodup →
      (raw.foldl stepOffer st).processed = st.processed ++ raw.map process_offer
      ∧ (raw.foldl stepOffer st).newOffers = st.newOffers ++ raw.map process_offer := by
  intro raw
  induction raw with
  | nil =>
    intro st h1 h2
    simp
  | cons o raw ih =>
    intro st h1 h2
    simp only [List.foldl_cons, List.map_cons]
    have ho : (process_offer o).id ∉ st.seen := h1 o (List.mem_cons_self _ _)
    have hstep : stepOffer st o =
        { processed := st.processed ++ [process_offer o],
          newOffers := st.newOffers ++ [process_offer o],
          seen := insert (process_offer o).id st.seen,
          store := (save_listing st.store (prepare_for_databd (process_offer o))).2 } := by
      simp [stepOffer, ho]
    rw [hstep]
    have h2m := List.nodup_cons.mp h2
    have h1m : ∀ o2 ∈ raw,
        (process_offer o2).id ∉ insert (process_offer o).id st.seen := by
      intro o2 ho2
      simp only [Finset.mem_insert, not_or]
      constructor
      · intro heq
        apply h2m.1
        show (process_offer o).id ∈ List.map (fun o3 => (process_offer o3).id) raw
        rw [← heq]
        exact List.mem_map_of_mem (fun o3 => (process_offer o3).id) ho2
      · exact h1 o2 (List.mem_cons_of_mem _ ho2)
    have hrec := ih
      { processed := st.processed ++ [process_offer o],
        newOffers := st.newOffers ++ [process_offer o],
        seen := insert (process_offer o).id st.seen,
        store := (save_listing st.store (prepare_for_databd (process_offer o))).2 }
      h1m h2m.2
    constructor
    · rw [hrec.1]
      simp
    · rw [hrec.2]
      simp

/-- C10 (counterexample): a cycle fetching the same id twice classifies
only the first occurrence as new: `total_count = 2`, `new_count = 1`,
`seen_count = 1 ≠ 0`, even though the seen-set load returned the empty
set. -/
theorem c10_counterexample :
    (parse_offers true "u" true none ⟨[], 0⟩ 0 none
        (.response 200 [{ id := some 7 }, { id := some 7 }])).stats.total_count = some 2
    ∧ (parse_offers true "u" true none ⟨[], 0⟩ 0 none
        (.response 200 [{ id := some 7 }, { id := some 7 }])).stats.new_count = some 1
    ∧ (parse_offers true "u" true none ⟨[], 0⟩ 0 none
        (.response 200 [{ id := some 7 }, { id := some 7 }])).stats.seen_count = some 1 := by
  refine ⟨by decide, by decide, by decide⟩

/-- C10 (amended): `get_seen_offers` returns the empty set regardless of
the store contents and the user; consequently, in any `parse_offers`
cycle whose fetched records have pairwise distinct extracted ids, every
processed offer is classified as new: `new_count = total_count =` the
number of fetched records and `seen_count = 0`. -/
theorem c10_empty_seen_amended (en : Bool) (u u2 : String) (onlyNew : Bool)
    (gate : Option SafetyRec) (db : DbState) (now : Nat) (raw : List RawOffer)
    (store : ListingStore)
    (hallow : (can_parse en gate now).1 = true)
    (hnodup : (raw.map fun o => (process_offer o).id).Nodup) :
    get_seen_offers store u2 = ∅
    ∧ (parse_offers en u onlyNew gate db now none
        (.response 200 raw)).stats.total_count = some raw.length
    ∧ (parse_offers en u onlyNew gate db now none
        (.response 200 raw)).stats.new_count = some raw.length
    ∧ (parse_offers en u onlyNew gate db now none
        (.response 200 raw)).stats.seen_count = some 0 := by
  have hres : parse_offers en u onlyNew gate db now none (.response 200 raw) =
      finishCycle en onlyNew gate { db with sessions := db.sessions + 1 } now ∅
        raw false := by
    simp [parse_offers, hallow, get_seen_offers]
  have hrc := runCycle_all_new raw ⟨[], [], ∅, db.listings⟩
    (by intro o ho; simp) hnodup
  refine ⟨rfl, ?_, ?_, ?_⟩
  · rw [hres]
    simp only [finishCycle, runCycle]
    rw [hrc.1]
    simp
  · rw [hres]
    simp only [finishCycle, runCycle]
    rw [hrc.2]
    simp
  · rw [hres]
    simp only [finishCycle, runCycle]
    rw [hrc.1, hrc.2]
    simp

/-- Witness for `c10_empty_seen_amended` at a two-offer fetch with
distinct ids. -/
theorem c10_empty_seen_amended_witness :
    (can_parse true none 0).1 = true
    ∧ (([{ id := some 7 }, { id := some 8 }] : List RawOffer).map
        fun o => (process_offer o).id).Nodup
    ∧ get_seen_offers [] "u"= ∅
    ∧ (parse_offers true "u" true none ⟨[], 0⟩ 0 none
        (.response 200 [{ id := some 7 }, { id := some 8 }])).stats.total_count = some 2
    ∧ (parse_offers true "u" true none ⟨[], 0⟩ 0 none
        (.response 200 [{ id := some 7 }, { id := some 8 }])).stats.new_count = some 2
    ∧ (parse_offers true "u" true none ⟨[], 0⟩ 0 none
        (.response 200 [{ id := some 7 }, { id := some 8 }])).stats.seen_count = some 0 :=
  ⟨by decide, by decide,
   (c10_empty_seen_amended true "u" "u" true none ⟨[], 0⟩ 0
      [{ id := some 7 }, { id := some 8 }] [] (by decide) (by decide)).1,
   (c10_empty_seen_amended true "u" "u" true none ⟨[], 0⟩ 0
      [{ id := some 7 }, { id := some 8 }] [] (by decide) (by decide)).2.1,
   (c10_empty_seen_amended true "u" "u" true none ⟨[], 0⟩ 0
      [{ id := some 7 }, { id := some 8 }] [] (by decide) (by decide)).2.2.1,
   (c10_empty_seen_amended true "u" "u" true none ⟨[], 0⟩ 0
      [{ id := some 7 }, { id := some 8 }] [] (by decide) (by decide)).2.2.2⟩

/-! ## Claim C3 -/

/-- `can_parse` can only deny through the blocked branch: the gate is
enabled, a record exists, its `last_parsing_time` is set, the interval
has not elapsed, and the returned info carries the wait fields. -/
lemma can_parse_denial_shape (en : Bool) (gate : Option SafetyRec) (now : Nat)
    (h : (can_parse en gate now).1 = false) :
    ∃ r lp, gate = some r ∧ r.last_parsing_time = some lp
      ∧ en = true
      ∧ now < lp + safetyIntervalSeconds
      ∧ (can_parse en gate now).2 =
        { status := .blocked,
          hours_left := (lp + safetyIntervalSeconds - now) / 3600,
          minutes_left := (lp + safetyIntervalSeconds - now) % 3600 / 60,
          next_available := some (lp + safetyIntervalSeconds),
          last_parsing := some lp,
          total_today := effCountToday r now,
          total_all_time := r.total_parsing_count } := by
  cases en with
  | false => simp [can_parse] at h
  | true =>
    cases gate with
    | none => simp [can_parse] at h
    | some r =>
      by_cases hc : 0 < effCountToday r now
      · cases hlp : r.last_parsing_time with
        | none => simp [can_parse, hc, hlp] at h
        | some lp =>
          by_cases ht : now < lp + safetyIntervalSeconds
          · refine ⟨r, lp, rfl, hlp, rfl, ht, ?_⟩
            simp [can_parse, hc, hlp, ht]
          · simp [can_parse, hc, hlp, ht] at h
      · simp [can_parse, hc] at h

/-- C3: when the admission gate denies, `parse_offers` returns
immediately with an empty listing list and the blocked stats (built from
the denial info), regardless of the provider outcome and the bypass
data — so no provider call is observable — and both the database and the
safety record are left untouched; the denial info always carries the
remaining wait in hours and minutes and the absolute next-available
timestamp `last_parsing_time + interval`. -/
theorem c3_blocked_short_circuit (en : Bool) (u : String) (onlyNew : Bool)
    (gate : Option SafetyRec) (db : DbState) (now : Nat)
    (bypass : Option (List RawOffer)) (provider : ProviderOutcome)
    (h : (can_parse en gate now).1 = false) :
    parse_offers en u onlyNew gate db now bypass provider =
      ⟨[], blockedStatsOf (can_parse en gate now).2, db, gate⟩
    ∧ ∃ r lp, gate = some r ∧ r.last_parsing_time = some lp
      ∧ (can_parse en gate now).2.status = .blocked
      ∧ (can_parse en gate now).2.hours_left =
          (lp + safetyIntervalSeconds - now) / 3600
      ∧ (can_parse en gate now).2.minutes_left =
          (lp + safetyIntervalSeconds - now) % 3600 / 60
      ∧ (can_parse en gate now).2.next_available =
          some (lp + safetyIntervalSeconds) := by
  constructor
  · simp [parse_offers, h]
  · obtain ⟨r, lp, hg, hlp, hen, ht, hinfo⟩ := can_parse_denial_shape en gate now h
    exact ⟨r, lp, hg, hlp, by rw [hinfo], by rw [hinfo], by rw [hinfo],
      by rw [hinfo]⟩

/-- Witness for `c3_blocked_short_circuit`: a user blocked one hour after
a counted fetch; the result is the blocked stats, the database and gate
are untouched, and no provider outcome is consulted. -/
theorem c3_blocked_short_circuit_witness :
    (can_parse true (some ⟨some 0, 1, 1, 0⟩) 3600).1 = false
    ∧ (parse_offers true "u" true (some ⟨some 0, 1, 1, 0⟩) ⟨[], 0⟩ 3600 none
          (.exn "boom") =
        ⟨[], blockedStatsOf (can_parse true (some ⟨some 0, 1, 1, 0⟩) 3600).2,
          ⟨[], 0⟩, some ⟨some 0, 1, 1, 0⟩⟩
      ∧ ∃ r lp, (some ⟨some 0, 1, 1, 0⟩ : Option SafetyRec) = some r
        ∧ r.last_parsing_time = some lp
        ∧ (can_parse true (some ⟨some 0, 1, 1, 0⟩) 3600).2.status = .blocked
        ∧ (can_parse true (some ⟨some 0, 1, 1, 0⟩) 3600).2.hours_left =
            (lp + safetyIntervalSeconds - 3600) / 3600
        ∧ (can_parse true (some ⟨some 0, 1, 1, 0⟩) 3600).2.minutes_left =
            (lp + safetyIntervalSeconds - 3600) % 3600 / 60
        ∧ (can_parse true (some ⟨some 0, 1, 1, 0⟩) 3600).2.next_available =
            some (lp + safetyIntervalSeconds)) :=
  ⟨by decide,
   c3_blocked_short_circuit true "u" true (some ⟨some 0, 1, 1, 0⟩) ⟨[], 0⟩ 3600
     none (.exn "boom") (by decide)⟩

/-! ## Claim C7 -/

/-- C7 (counterexample): on a provider failure (HTTP 404), `parse_offers`
leaves the safety record untouched instead of recording a
`success=false` fetch (which would have changed the record), and on HTTP
500 it saves the two demo listings — a storage mutation. -/
theorem c7_counterexample :
    (parse_offers true "u" true (some ⟨some 0, 0, 0, 0⟩) ⟨[], 0⟩ 172800 none
        (.response 404 [])).gate = some ⟨some 0, 0, 0, 0⟩
    ∧ log_parsing true (some ⟨some 0, 0, 0, 0⟩) 172800 false ≠
        some ⟨some 0, 0, 0, 0⟩
    ∧ (parse_offers true "u" true (some ⟨some 0, 0, 0, 0⟩) ⟨[], 0⟩ 172800 none
        (.response 500 [])).db.listings.length = 2 := by
  refine ⟨by decide, by decide, by decide⟩

/-- C7 (amended): on a provider failure with a non-200 status other than
500, or on a request exception, `parse_offers` returns `([], {'error':
...})` with the listings and the safety record untouched, and does NOT
call the gate's record-fetch operation at all; the error stats are
distinguishable from the blocked stats (no `safety_mode` key) and from
success stats (which never carry an `error` key).  A 500 status instead
falls back to the demo data, which saves the demo listings and records a
`success=true` fetch. -/
theorem c7_provider_failure_amended (en : Bool) (u : String) (onlyNew : Bool)
    (gate : Option SafetyRec) (db : DbState) (now : Nat) (statusCode : Nat)
    (raw : List RawOffer) (msg : String) :
    (statusCode ≠ 200 → statusCode ≠ 500 → (can_parse en gate now).1 = true →
      parse_offers en u onlyNew gate db now none (.response statusCode raw) =
        ⟨[], { error := some ("API вернул статус " ++ toString statusCode) },
          { db with sessions := db.sessions + 1 }, gate⟩)
    ∧ ((can_parse en gate now).1 = true →
      parse_offers en u onlyNew gate db now none (.exn msg) =
        ⟨[], { error := some msg }, { db with sessions := db.sessions + 1 },
          gate⟩)
    ∧ ((can_parse en gate now).1 = true →
      parse_offers en u onlyNew gate db now none (.response 500 raw) =
        get_demo_data en onlyNew gate { db with sessions := db.sessions + 1 } now)
    ∧ (get_demo_data en onlyNew gate db now).gate = log_parsing en gate now true
    ∧ (∀ s info, ({ error := some s } : ParseStats) ≠ blockedStatsOf info)
    ∧ (∀ seen0 b,
        (finishCycle en onlyNew gate db now seen0 raw b).stats.error = none) := by
  refine ⟨?_, ?_, ?_, rfl, ?_, ?_⟩
  · intro h1 h2 h3
    simp [parse_offers, h3, h1, h2]
  · intro h3
    simp [parse_offers, h3]
  · intro h3
    simp [parse_offers, h3]
  · intro s info
    simp [blockedStatsOf, ParseStats.mk.injEq]
  · intro seen0 b
    simp [finishCycle]

/-- Witness for `c7_provider_failure_amended`: HTTP 404 for an allowed
user. -/
theorem c7_provider_failure_amended_witness :
    (404 : Nat) ≠ 200 ∧ (404 : Nat) ≠ 500
    ∧ (can_parse true (some ⟨some 0, 0, 0, 0⟩) 172800).1 = true
    ∧ parse_offers true "u" true (some ⟨some 0, 0, 0, 0⟩) ⟨[], 0⟩ 172800 none
        (.response 404 []) =
      ⟨[], { error := some ("API вернул статус " ++ toString (404 : Nat)) },
        ⟨[], 1⟩, some ⟨some 0, 0, 0, 0⟩⟩ :=
  ⟨by decide, by decide, by decide,
   (c7_provider_failure_amended true "u" true (some ⟨some 0, 0, 0, 0⟩) ⟨[], 0⟩
      172800 404 [] "m").1 (by decide) (by decide) (by decide)⟩

/-! ## Claim C6 -/

/-- C6 (counterexample): a raw record with no extractable id is NOT
dropped: it is processed with default id 0, counted as new, stored under
id `"0"`, and `0` enters the in-memory seen-set. -/
theorem c6_counterexample :
    ((parse_offers true "u" true none ⟨[], 0⟩ 0 none
        (.response 200 [{}])).db.listings.map fun l => l.id) = ["0"]
    ∧ (parse_offers true "u" true none ⟨[], 0⟩ 0 none
        (.response 200 [{}])).stats.new_count = some 1
    ∧ (runCycle ∅ [] [{}]).seen = {0} := by
  refine ⟨by decide, by decide, by decide⟩

/-- C6 (amended): a record with no extractable id is not dropped: the
normalizer substitutes the default id 0, the prepared row's id is the
non-empty string `"0"`, the id 0 enters the in-memory seen-set, the row
is persisted under `"0"`, and the record is counted as new; no separate
drop counter exists. -/
theorem c6_missing_id_amended (o : RawOffer) (en : Bool) (u : String)
    (gate : Option SafetyRec) (db : DbState) (now : Nat)
    (hid : o.id = none)
    (hallow : (can_parse en gate now).1 = true)
    (hstore : findListing db.listings "0" = none) :
    (process_offer o).id = 0
    ∧ (prepare_for_databd (process_offer o)).id = "0"
    ∧ (runCycle ∅ db.listings [o]).seen = {0}
    ∧ findListing (parse_offers en u true gate db now none
        (.response 200 [o])).db.listings "0"
      = some (prepare_for_databd (process_offer o))
    ∧ (parse_offers en u true gate db now none
        (.response 200 [o])).stats.new_count = some 1 := by
  have hpid : (process_offer o).id = 0 := by
    simp [process_offer, hid]
  have hprep : (prepare_for_databd (process_offer o)).id = "0" := by
    simp only [prepare_for_databd]
    rw [hpid]
    rfl
  have hstore2 : findListing db.listings (prepare_for_databd (process_offer o)).id
      = none := by rw [hprep]; exact hstore
  have hstep : runCycle ∅ db.listings [o] =
      { processed := [process_offer o], newOffers := [process_offer o],
        seen := {0},
        store := db.listings ++ [prepare_for_databd (process_offer o)] } := by
    simp only [runCycle, List.foldl_cons, List.foldl_nil, stepOffer]
    rw [save_listing_insert _ _ hstore2]
    simp [hpid]
  have hres : parse_offers en u true gate db now none (.response 200 [o]) =
      finishCycle en true gate { db with sessions := db.sessions + 1 } now ∅
        [o] false := by
    simp [parse_offers, hallow, get_seen_offers]
  refine ⟨hpid, hprep, ?_, ?_, ?_⟩
  · rw [hstep]
  · rw [hres]
    simp only [finishCycle]
    rw [hstep]
    rw [← hprep]
    exact findListing_append_right db.listings _ hstore2
  · rw [hres]
    simp only [finishCycle]
    rw [hstep]
    rfl

/-- Witness for `c6_missing_id_amended`: the empty raw record on a fresh
store. -/
theorem c6_missing_id_amended_witness :
    ({} : RawOffer).id = none
    ∧ (can_parse true none 0).1 = true
    ∧ findListing [] "0" = none
    ∧ (process_offer {}).id = 0
    ∧ (prepare_for_databd (process_offer {})).id = "0"
    ∧ (runCycle ∅ [] [{}]).seen = {0}
    ∧ findListing (parse_offers true "u" true none ⟨[], 0⟩ 0 none
        (.response 200 [{}])).db.listings "0"
      = some (prepare_for_databd (process_offer {}))
    ∧ (parse_offers true "u" true none ⟨[], 0⟩ 0 none
        (.response 200 [{}])).stats.new_count = some 1 :=
  ⟨rfl, by decide, by decide,
   (c6_missing_id_amended {} true "u" none ⟨[], 0⟩ 0 rfl (by decide) (by decide)).1,
   (c6_missing_id_amended {} true "u" none ⟨[], 0⟩ 0 rfl (by decide) (by decide)).2.1,
   (c6_missing_id_amended {} true "u" none ⟨[], 0⟩ 0 rfl (by decide) (by decide)).2.2.1,
   (c6_missing_id_amended {} true "u" none ⟨[], 0⟩ 0 rfl (by decide) (by decide)).2.2.2.1,
   (c6_missing_id_amended {} true "u" none ⟨[], 0⟩ 0 rfl (by decide) (by decide)).2.2.2.2⟩

end LavkaHahaton
